import Mathlib

/-
  Verification development for the schema-directed JSON parse-and-validate
  engine (src/node_json_schema_parser.cc / .h).

  Modelling conventions (shallow embedding):
  * C++ doubles are modelled as exact rationals (ℚ).  The ±INFINITY defaults
    of the numeric bounds (minimum, maximum, exclusiveMinimum,
    exclusiveMaximum) are modelled as `Option ℚ` with `none` standing for the
    unbounded default: a comparison against ±INFINITY never fires for a finite
    JSON number, exactly as the `none` branch never fires here.
  * `size_t` bounds with default SIZE_MAX (maxLength, maxProperties, maxItems)
    are modelled as `Option Nat`, `none` = SIZE_MAX (a count can never exceed
    it).
  * The simdjson on-demand parser is external to the repository; per the
    engine's contract it delivers a typed node tree in which every individual
    read (`get_string`, `get_int64`/`get_double`, `get_bool`, `get_object`,
    `get_array`, `unescaped_key`, field/array-item access, `type()`) may fail.
    `JNode` represents a document as the sequence of answers the on-demand
    parser gives, with `none` / failure constructors for failing reads.
  * Host (V8) strings are Lean `String`s (sequences of Unicode scalar
    values); `String::NewFromUtf8` is UTF-8 decoding, `v8::String::Length` is
    the UTF-16 code-unit count, and node's `OneByteString` interprets its
    byte arguments as Latin-1 code units (`oneByteStringOf`).
  * `std::unordered_set` / `std::unordered_map` are modelled as lists with
    membership-based insert/find; only membership is ever observed.
-/

namespace NodeJsonSchema

/-- JSON Schema type enumeration (node_json_schema_parser.h, `JSONSchemaType`). -/
inductive JSONSchemaType where
  | STRING
  | NUMBER
  | INTEGER
  | BOOLEAN
  | OBJECT
  | ARRAY
  | NULL_TYPE
deriving DecidableEq, Repr

/-- Host exception constructor used for a thrown error: `Exception::SyntaxError`,
`Exception::TypeError` or plain `Exception::Error`. -/
inductive ErrCtor where
  | syntaxError
  | typeError
  | genericError
deriving DecidableEq, Repr

/-- Engine-side error taxonomy (spec §7).  `syntaxKind` is the tokenizer /
type-tag failure row; `readFailure` tags the `Failed to get ...` throws for a
mid-document read failure of the on-demand parser. -/
inductive ErrKind where
  | syntaxKind
  | typeMismatch
  | stringTooShort
  | stringTooLong
  | numberBelowMinimum
  | numberAboveMaximum
  | numberNotAboveExclMinimum
  | numberNotBelowExclMaximum
  | notMultipleOf
  | missingRequired
  | tooFewProperties
  | tooManyProperties
  | tooFewItems
  | tooManyItems
  | duplicateItem
  | readFailure
deriving DecidableEq, Repr

/-- A thrown error: which host constructor the code uses, the taxonomy kind of
the throw site, and the message string. -/
structure Err where
  ctor : ErrCtor
  kind : ErrKind
  msg : String
deriving DecidableEq, Repr

/-- An error is a validation error when it is neither the tokenizer/type-tag
`SyntaxError` row nor a mid-document read failure (spec §7: TypeMismatch and
all constraint rows). -/
def IsValidationError (e : Err) : Prop :=
  e.kind ≠ ErrKind.syntaxKind ∧ e.kind ≠ ErrKind.readFailure

instance (e : Err) : Decidable (IsValidationError e) := by
  unfold IsValidationError; infer_instance

/-- Scalar fields of `JSONSchemaStruct` (node_json_schema_parser.h) that the
engine consults.  Fields that are parsed but never read by the engine
(pattern, format, logical/conditional sub-schemas, metadata) are omitted from
the embedding since no code path observes them. -/
structure SchemaCore where
  types : List JSONSchemaType
  min_length : Nat
  max_length : Option Nat
  minimum : Option ℚ
  maximum : Option ℚ
  exclusive_minimum : Option ℚ
  exclusive_maximum : Option ℚ
  multiple_of : ℚ
  required : List String
  min_properties : Nat
  max_properties : Option Nat
  min_items : Nat
  max_items : Option Nat
  unique_items : Bool
deriving DecidableEq, Repr

/-- The recursive schema IR: scalar core plus the owned child schemas
(`properties` and the single-schema form of `items`; the tuple variant of
`SchemaItems` and a null `items` pointer both make the engine fall back to
the permissive default, so both are `none` here). -/
inductive Schema where
  | mk (core : SchemaCore) (properties : List (String × Schema))
      (items : Option Schema)

/-- Scalar-core projection of a schema node. -/
def Schema.core : Schema → SchemaCore
  | .mk c _ _ => c

/-- The compiled `properties` map of a schema node. -/
def Schema.properties : Schema → List (String × Schema)
  | .mk _ p _ => p

/-- The compiled single-schema `items` of a schema node. -/
def Schema.items : Schema → Option Schema
  | .mk _ _ i => i

/-- Scalar core with every constraint at its neutral default (the
default-constructed `JSONSchemaStruct`). -/
def defaultCore : SchemaCore :=
  ⟨[], 0, none, none, none, none, none, 0, [], 0, none, 0, none, false⟩

/-- The permissive default schema: the statically allocated
`static JSONSchemaStruct default_schema` used wherever no child schema is
given. -/
def default_schema : Schema := Schema.mk defaultCore [] none

/-- Number of UTF-16 code units a Unicode scalar value occupies (1 for the
BMP, 2 for a surrogate pair). -/
def utf16UnitsOfChar (c : Char) : Nat :=
  if c.toNat < 0x10000 then 1 else 2

/-- UTF-16 code-unit count of a host string (`v8::String::Length`). -/
def utf16Length (s : String) : Nat :=
  (s.data.map utf16UnitsOfChar).sum

/-- UTF-8 encoding of a single Unicode scalar value, as byte values. -/
def utf8BytesOfChar (c : Char) : List Nat :=
  let n := c.toNat
  if n < 0x80 then [n]
  else if n < 0x800 then [0xC0 + n / 0x40, 0x80 + n % 0x40]
  else if n < 0x10000 then
    [0xE0 + n / 0x1000, 0x80 + (n / 0x40) % 0x40, 0x80 + n % 0x40]
  else
    [0xF0 + n / 0x40000, 0x80 + (n / 0x1000) % 0x40,
     0x80 + (n / 0x40) % 0x40, 0x80 + n % 0x40]

/-- UTF-8 byte sequence of a host string (what `Utf8Value` /
`simdjson`'s byte views carry). -/
def utf8Bytes (s : String) : List Nat :=
  (s.data.map utf8BytesOfChar).flatten

/-- Node's `OneByteString` over a byte buffer: each byte becomes the Unicode
scalar value with the same number (Latin-1 interpretation). -/
def oneByteStringOf (bytes : List Nat) : String :=
  String.mk (bytes.map Char.ofNat)

/-- The host string produced when the engine materializes an object key:
`OneByteString(isolate, key.data(), key.length())` applied to the key's
UTF-8 bytes. -/
def latin1OfUtf8 (s : String) : String :=
  oneByteStringOf (utf8Bytes s)

/-- Result of the number token extraction (`get_int64` try first, then
`get_double`).  `asInt` = the int64 extraction succeeded; `asDouble` = it
failed and the double extraction succeeded; `numFail` = both failed. -/
inductive JNumRep where
  | asInt (i : Int)
  | asDouble (q : ℚ)
  | numFail
deriving DecidableEq, Repr

/-- A JSON document node as delivered by the on-demand parser.  For each
typed node the payload is `none` when the corresponding extraction
(`get_string`, `get_bool`, `get_object`, `get_array`) fails; an object field
carries `none` for a failing `unescaped_key()` or `field.value()` read and an
array slot carries `none` for a failing `item.get(value)`; `jtypeFail` is a
node whose `type()` read fails. -/
inductive JNode where
  | jstr (sOpt : Option String)
  | jnum (rep : JNumRep)
  | jbool (bOpt : Option Bool)
  | jnull
  | jobj (fieldsOpt : Option (List (Option String × Option JNode)))
  | jarr (itemsOpt : Option (List (Option JNode)))
  | jtypeFail

/-- Host value tree materialized by the engine (spec §3.3).  Object fields
are in first-occurrence order with JS `Set` overwrite semantics. -/
inductive HostVal where
  | vstr (s : String)
  | vnum (q : ℚ)
  | vbool (b : Bool)
  | vnull
  | vobj (fields : List (String × HostVal))
  | varr (items : List HostVal)

/-- JS object `Set`: overwrite the value in place if the key exists,
otherwise append. -/
def objSet (fields : List (String × HostVal)) (k : String) (v : HostVal) :
    List (String × HostVal) :=
  match fields with
  | [] => [(k, v)]
  | (k', v') :: rest =>
    if k' = k then (k, v) :: rest else (k', v') :: objSet rest k v

/-- The `n > bound` test against an optional upper bound (SIZE_MAX = `none`
never exceeded). -/
def gtOptNat (n : Nat) : Option Nat → Bool
  | some m => decide (m < n)
  | none => false

/-- `value < minimum` with `none` = -INFINITY (never fires). -/
def ltOptRat (v : ℚ) : Option ℚ → Bool
  | some b => decide (v < b)
  | none => false

/-- `value > maximum` with `none` = INFINITY (never fires). -/
def gtOptRat (v : ℚ) : Option ℚ → Bool
  | some b => decide (b < v)
  | none => false

/-- `value <= exclusive_minimum` with `none` = -INFINITY (never fires). -/
def leOptRat (v : ℚ) : Option ℚ → Bool
  | some b => decide (v ≤ b)
  | none => false

/-- `value >= exclusive_maximum` with `none` = INFINITY (never fires). -/
def geOptRat (v : ℚ) : Option ℚ → Bool
  | some b => decide (b ≤ v)
  | none => false

/-- `JSONSchemaParser::ValidateNumberConstraints`
(node_json_schema_parser.cc lines 1045-1087): the five checks in source
order, each throw site with its message. -/
def ValidateNumberConstraints (schema : SchemaCore) (value : ℚ) :
    Except Err Unit :=
  if ltOptRat value schema.minimum then
    .error ⟨.genericError, .numberBelowMinimum, "Number is less than minimum"⟩
  else if gtOptRat value schema.maximum then
    .error ⟨.genericError, .numberAboveMaximum,
      "Number is greater than maximum"⟩
  else if leOptRat value schema.exclusive_minimum then
    .error ⟨.genericError, .numberNotAboveExclMinimum,
      "Number is not greater than exclusiveMinimum"⟩
  else if geOptRat value schema.exclusive_maximum then
    .error ⟨.genericError, .numberNotBelowExclMaximum,
      "Number is not less than exclusiveMaximum"⟩
  else if 0 < schema.multiple_of ∧
      (⌊value / schema.multiple_of⌋ : ℚ) ≠
        value / schema.multiple_of then
    .error ⟨.genericError, .notMultipleOf,
      "Number is not a multiple of multipleOf"⟩
  else .ok ()

/-- `JSONSchemaParser::ValidateStringConstraints`
(node_json_schema_parser.cc lines 1012-1042): convert the UTF-8 slice to a
host string, measure its host length (UTF-16 code units), then compare with
the bounds.  Node strings in `JNode` are already decoded host strings
(simdjson's `get_string` only yields valid UTF-8), so the
`Invalid UTF-8 string` path is unreachable in the embedding. -/
def ValidateStringConstraints (schema : SchemaCore) (value : String) :
    Except Err Unit :=
  let char_count := utf16Length value
  if char_count < schema.min_length then
    .error ⟨.genericError, .stringTooShort, "String is shorter than minLength"⟩
  else if gtOptNat char_count schema.max_length then
    .error ⟨.genericError, .stringTooLong, "String is longer than maxLength"⟩
  else .ok ()

/-- Find the per-property schema: `schema->properties.find(std::string(key))`,
a byte-level comparison between the key slice and the stored property name. -/
def findPropSchema (props : List (String × Schema)) (keyBytes : List Nat) :
    Option Schema :=
  match props with
  | [] => none
  | (name, s) :: rest =>
    if utf8Bytes name = keyBytes then some s else findPropSchema rest keyBytes

/-- Unordered-set insert of a byte string (membership-preserving). -/
def insertBytes (found : List (List Nat)) (b : List Nat) : List (List Nat) :=
  if b ∈ found then found else found ++ [b]

/-- Unordered-set insert of a fingerprint string. -/
def insertSeen (seen : List String) (s : String) : List String :=
  if s ∈ seen then seen else seen ++ [s]

/-- First name in `schema->required` (in iteration order) whose byte string
is not among the observed keys. -/
def firstMissingRequired : List String → List (List Nat) → Option String
  | [], _ => none
  | r :: rest, found =>
    if utf8Bytes r ∈ found then firstMissingRequired rest found else some r

mutual

/-- `JSONSchemaParser::ParseJSONValue` (node_json_schema_parser.cc lines
665-1009): the recursive, type-directed parse-and-validate descent.  `fp` is
the host textual coercion (`String::Utf8Value` of a produced value) used for
the `uniqueItems` fingerprint; it is a parameter because the coercion is host
(V8) behavior, not code of this repository. -/
def ParseJSONValue (fp : HostVal → String) (schema : Schema)
    (skip_validation : Bool) (node : JNode) : Except Err HostVal :=
  match node with
  | .jtypeFail =>
    .error ⟨.syntaxError, .syntaxKind, "Invalid JSON format"⟩
  | .jstr sOpt =>
    if skip_validation = false ∧ schema.core.types ≠ [] ∧
        JSONSchemaType.STRING ∉ schema.core.types then
      .error ⟨.typeError, .typeMismatch, "Value does not match schema type"⟩
    else
      match sOpt with
      | none =>
        .error ⟨.genericError, .readFailure, "Failed to get string value"⟩
      | some str_view =>
        if skip_validation = false then
          match ValidateStringConstraints schema.core str_view with
          | .error e => .error e
          | .ok _ => .ok (.vstr str_view)
        else .ok (.vstr str_view)
  | .jnum rep =>
    if skip_validation = false ∧ schema.core.types ≠ [] ∧
        JSONSchemaType.NUMBER ∉ schema.core.types ∧
        JSONSchemaType.INTEGER ∉ schema.core.types then
      .error ⟨.typeError, .typeMismatch, "Value does not match schema type"⟩
    else
      match rep with
      | .asInt int_val =>
        let num_value : ℚ := int_val
        if skip_validation = false then
          match ValidateNumberConstraints schema.core num_value with
          | .error e => .error e
          | .ok _ => .ok (.vnum num_value)
        else .ok (.vnum num_value)
      | .asDouble double_val =>
        if skip_validation = false ∧ schema.core.types ≠ [] ∧
            JSONSchemaType.INTEGER ∈ schema.core.types ∧
            JSONSchemaType.NUMBER ∉ schema.core.types ∧
            (⌊double_val⌋ : ℚ) ≠ double_val then
          .error ⟨.typeError, .typeMismatch,
            "Value does not match schema type"⟩
        else if skip_validation = false then
          match ValidateNumberConstraints schema.core double_val with
          | .error e => .error e
          | .ok _ => .ok (.vnum double_val)
        else .ok (.vnum double_val)
      | .numFail =>
        .error ⟨.genericError, .readFailure, "Failed to get number value"⟩
  | .jbool bOpt =>
    if skip_validation = false ∧ schema.core.types ≠ [] ∧
        JSONSchemaType.BOOLEAN ∉ schema.core.types then
      .error ⟨.typeError, .typeMismatch, "Value does not match schema type"⟩
    else
      match bOpt with
      | none =>
        .error ⟨.genericError, .readFailure, "Failed to get boolean value"⟩
      | some bool_val => .ok (.vbool bool_val)
  | .jnull =>
    if skip_validation = false ∧ schema.core.types ≠ [] ∧
        JSONSchemaType.NULL_TYPE ∉ schema.core.types then
      .error ⟨.typeError, .typeMismatch, "Value does not match schema type"⟩
    else .ok .vnull
  | .jobj fieldsOpt =>
    if skip_validation = false ∧ schema.core.types ≠ [] ∧
        JSONSchemaType.OBJECT ∉ schema.core.types then
      .error ⟨.typeError, .typeMismatch, "Value does not match schema type"⟩
    else
      match fieldsOpt with
      | none => .error ⟨.genericError, .readFailure, "Failed to get object"⟩
      | some fields =>
        if skip_validation then
          match goFieldsSkip fp fields [] with
          | .error e => .error e
          | .ok obj => .ok (.vobj obj)
        else
          match goFieldsValidate fp schema fields [] [] 0 with
          | .error e => .error e
          | .ok (obj, found_properties, property_count) =>
            if property_count < schema.core.min_properties then
              .error ⟨.genericError, .tooFewProperties,
                "Object has fewer properties than minProperties"⟩
            else if gtOptNat property_count schema.core.max_properties then
              .error ⟨.genericError, .tooManyProperties,
                "Object has more properties than maxProperties"⟩
            else
              match firstMissingRequired schema.core.required
                  found_properties with
              | some required_prop =>
                .error ⟨.genericError, .missingRequired,
                  "Required property '" ++
                    oneByteStringOf (utf8Bytes required_prop) ++
                    "' is missing"⟩
              | none => .ok (.vobj obj)
  | .jarr itemsOpt =>
    if skip_validation = false ∧ schema.core.types ≠ [] ∧
        JSONSchemaType.ARRAY ∉ schema.core.types then
      .error ⟨.typeError, .typeMismatch, "Value does not match schema type"⟩
    else
      match itemsOpt with
      | none => .error ⟨.genericError, .readFailure, "Failed to get array"⟩
      | some elems =>
        if skip_validation then
          match goItemsSkip fp elems [] with
          | .error e => .error e
          | .ok items => .ok (.varr items)
        else
          match goItemsValidate fp (schema.items.getD default_schema)
              schema.core.unique_items elems [] [] with
          | .error e => .error e
          | .ok items =>
            if items.length < schema.core.min_items then
              .error ⟨.genericError, .tooFewItems,
                "Array has fewer items than minItems"⟩
            else if gtOptNat items.length schema.core.max_items then
              .error ⟨.genericError, .tooManyItems,
                "Array has more items than maxItems"⟩
            else .ok (.varr items)

/-- Object field loop of the `skip_validation` branch (lines 793-811): a
field whose key or value read fails is skipped with `continue`; each parsed
value is stored under the `OneByteString` materialization of the key. -/
def goFieldsSkip (fp : HostVal → String)
    (fields : List (Option String × Option JNode))
    (obj : List (String × HostVal)) :
    Except Err (List (String × HostVal)) :=
  match fields with
  | [] => .ok obj
  | (keyOpt, valOpt) :: rest =>
    match keyOpt with
    | none => goFieldsSkip fp rest obj
    | some key =>
      match valOpt with
      | none => goFieldsSkip fp rest obj
      | some value =>
        match ParseJSONValue fp default_schema true value with
        | .error e => .error e
        | .ok v8_value =>
          goFieldsSkip fp rest (objSet obj (latin1OfUtf8 key) v8_value)

/-- Object field loop of the validation branch (lines 813-849): a failing
key read is skipped; after a successful key read the key is recorded in
`found_properties` and counted before the value read (so a field whose value
read fails still counts); the value is parsed against the per-property schema
or the permissive default. -/
def goFieldsValidate (fp : HostVal → String) (schema : Schema)
    (fields : List (Option String × Option JNode))
    (obj : List (String × HostVal)) (found_properties : List (List Nat))
    (property_count : Nat) :
    Except Err (List (String × HostVal) × List (List Nat) × Nat) :=
  match fields with
  | [] => .ok (obj, found_properties, property_count)
  | (keyOpt, valOpt) :: rest =>
    match keyOpt with
    | none => goFieldsValidate fp schema rest obj found_properties
        property_count
    | some key =>
      let keyBytes := utf8Bytes key
      let found' := insertBytes found_properties keyBytes
      let count' := property_count + 1
      match valOpt with
      | none => goFieldsValidate fp schema rest obj found' count'
      | some value =>
        match ParseJSONValue fp
            ((findPropSchema schema.properties keyBytes).getD default_schema)
            false value with
        | .error e => .error e
        | .ok v8_value =>
          goFieldsValidate fp schema rest
            (objSet obj (latin1OfUtf8 key) v8_value) found' count'

/-- Array element loop of the `skip_validation` branch (lines 898-915): a
failing element read throws. -/
def goItemsSkip (fp : HostVal → String) (elems : List (Option JNode))
    (acc : List HostVal) : Except Err (List HostVal) :=
  match elems with
  | [] => .ok acc
  | itemOpt :: rest =>
    match itemOpt with
    | none =>
      .error ⟨.genericError, .readFailure, "Failed to get array item"⟩
    | some value =>
      match ParseJSONValue fp default_schema true value with
      | .error e => .error e
      | .ok v8_value => goItemsSkip fp rest (acc ++ [v8_value])

/-- Array element loop of the validation branch (lines 916-962): parse each
element against the items schema, then (if `uniqueItems`) reject immediately
when the textual fingerprint of the produced value was already seen. -/
def goItemsValidate (fp : HostVal → String) (items_schema : Schema)
    (unique_items : Bool) (elems : List (Option JNode))
    (seen_values : List String) (acc : List HostVal) :
    Except Err (List HostVal) :=
  match elems with
  | [] => .ok acc
  | itemOpt :: rest =>
    match itemOpt with
    | none =>
      .error ⟨.genericError, .readFailure, "Failed to get array item"⟩
    | some value =>
      match ParseJSONValue fp items_schema false value with
      | .error e => .error e
      | .ok v8_value =>
        if unique_items then
          let str_value := fp v8_value
          if str_value ∈ seen_values then
            .error ⟨.genericError, .duplicateItem,
              "Array contains duplicate items"⟩
          else
            goItemsValidate fp items_schema unique_items rest
              (insertSeen seen_values str_value) (acc ++ [v8_value])
        else goItemsValidate fp items_schema unique_items rest seen_values
          (acc ++ [v8_value])

end

mutual

/-- Modelled from the spec (§8 property 1, §3.3, §5): the standard JSON
interpretation of a document — strings, numbers, booleans and null as
themselves, arrays in element order, and objects as mappings from the
decoded UTF-8 keys in first-occurrence order (later duplicates overwrite the
value in place).  `none` when any node read fails, i.e. the document is not
a syntactically valid JSON document fully readable by the parser.  This is
the spec-side reference definition that C1 compares the engine against. -/
def standardJsonInterp : JNode → Option HostVal
  | .jstr (some s) => some (.vstr s)
  | .jnum (.asInt i) => some (.vnum (i : ℚ))
  | .jnum (.asDouble q) => some (.vnum q)
  | .jbool (some b) => some (.vbool b)
  | .jnull => some .vnull
  | .jobj (some fields) => (stdFields fields []).map .vobj
  | .jarr (some elems) => (stdItems elems []).map .varr
  | .jstr none => none
  | .jnum .numFail => none
  | .jbool none => none
  | .jobj none => none
  | .jarr none => none
  | .jtypeFail => none

/-- Standard interpretation of an object's field list (spec side). -/
def stdFields (fields : List (Option String × Option JNode))
    (obj : List (String × HostVal)) : Option (List (String × HostVal)) :=
  match fields with
  | [] => some obj
  | (some k, some nd) :: rest =>
    match standardJsonInterp nd with
    | some v => stdFields rest (objSet obj k v)
    | none => none
  | (none, _) :: _ => none
  | (some _, none) :: _ => none

/-- Standard interpretation of an array's element list (spec side). -/
def stdItems (elems : List (Option JNode)) (acc : List HostVal) :
    Option (List HostVal) :=
  match elems with
  | [] => some acc
  | some nd :: rest =>
    match standardJsonInterp nd with
    | some v => stdItems rest (acc ++ [v])
    | none => none
  | none :: _ => none

end

/-- Value of the `skipValidation` member of the options object as the host
binding sees it: a boolean, or some non-boolean value (number, string, ...). -/
inductive OptMember where
  | hbool (b : Bool)
  | nonBoolean
deriving DecidableEq, Repr

/-- The second argument of a `parse` call: either not a JS object, or an
object whose `skipValidation` member is present (`none` = absent, i.e. the
property read yields `undefined`). -/
inductive OptionsArg where
  | notAnObject
  | objectWith (skipValidation : Option OptMember)
deriving DecidableEq, Repr

/-- Options handling of `JSONSchemaParser::Parse` (node_json_schema_parser.cc
lines 106-116): `skip_validation` starts `false` and is overwritten only when
a second argument exists, is an object, and its `skipValidation` member is a
boolean; then it becomes that boolean's value. -/
def computeSkipValidation (argOpt : Option OptionsArg) : Bool :=
  match argOpt with
  | some (.objectWith (some (.hbool b))) => b
  | _ => false

/-- A loosely-typed schema description node handed to the binding (a V8
value): string, number, boolean, null, array, object (own enumerable
string-keyed properties in order), or `undefined`. -/
inductive SDesc where
  | sstr (s : String)
  | snum (q : ℚ)
  | sbool (b : Bool)
  | snull
  | sarr (xs : List SDesc)
  | sobj (fields : List (String × SDesc))
  | sundefined
deriving Repr

/-- V8 `IsObject`: true for plain objects and for arrays. -/
def SDesc.isObject : SDesc → Bool
  | .sobj _ => true
  | .sarr _ => true
  | _ => false

/-- V8 `IsUndefined`. -/
def SDesc.isUndefined : SDesc → Bool
  | .sundefined => true
  | _ => false

/-- A node that is not `IsUndefined` differs from `sundefined`. -/
theorem SDesc.ne_sundefined_of_not_isUndefined {d : SDesc} (h : ¬ d.isUndefined = true) :
    d ≠ SDesc.sundefined := by
  intro hc
  subst hc
  exact h rfl

/-- V8 `IsArray`. -/
def SDesc.isArray : SDesc → Bool
  | .sarr _ => true
  | _ => false

/-- V8 `IsString`. -/
def SDesc.isString : SDesc → Bool
  | .sstr _ => true
  | _ => false

/-- First-match association lookup on an object's own properties
(`undefined` when absent). -/
def lookupFieldSD : List (String × SDesc) → String → SDesc
  | [], _ => .sundefined
  | (n, v) :: rest, k => if n = k then v else lookupFieldSD rest k

/-- `Get(context, name)` on a description node: property lookup on an
object, numeric-string index lookup on an array, `undefined` otherwise. -/
def getProp (d : SDesc) (k : String) : SDesc :=
  match d with
  | .sobj fields => lookupFieldSD fields k
  | .sarr xs =>
    match k.toNat? with
    | some i => xs.getD i .sundefined
    | none => .sundefined
  | _ => .sundefined

/-- `GetOwnPropertyNames` on a description node: the own enumerable property
names in order (index strings for an array). -/
def ownPropNames : SDesc → List String
  | .sobj fields => fields.map Prod.fst
  | .sarr xs => (List.range xs.length).map toString
  | _ => []

/-- The seven valid type names (`valid_types` array, lines 295-296). -/
def valid_types : List String :=
  ["string", "number", "integer", "boolean", "object", "array", "null"]

/-- Loop body of the array branch of `ValidateTypeField` (lines 311-323):
the element must be a string and a valid type name. -/
def typeItemOk (item : SDesc) : Bool :=
  match item with
  | .sstr t => decide (t ∈ valid_types)
  | _ => false

/-- `JSONSchemaParser::ValidateTypeField` (lines 292-328): a string must be a
valid type name; an array must be non-empty and hold only strings that are
valid type names; anything else is invalid. -/
def ValidateTypeField (type_val : SDesc) : Bool :=
  match type_val with
  | .sstr t => decide (t ∈ valid_types)
  | .sarr type_array =>
    if type_array.length = 0 then false
    else type_array.all typeItemOk
  | _ => false

/-- Every `SDesc` has positive size. -/
theorem SDesc.one_le_sizeOf (d : SDesc) : 1 ≤ sizeOf d := by
  cases d <;> simp <;> omega

/-- Association lookup never exceeds the size of the field list. -/
theorem sizeOf_lookupFieldSD (fields : List (String × SDesc)) (k : String) :
    sizeOf (lookupFieldSD fields k) ≤ sizeOf fields := by
  induction fields with
  | nil => simp [lookupFieldSD]
  | cons hd tl ih =>
    obtain ⟨n, v⟩ := hd
    simp only [lookupFieldSD]
    split
    · simp only [List.cons.sizeOf_spec, Prod.mk.sizeOf_spec]
      omega
    · simp only [List.cons.sizeOf_spec]
      omega

/-- A property read either shrinks the size or yields `undefined`. -/
theorem sizeOf_getProp_or (d : SDesc) (k : String) :
    sizeOf (getProp d k) < sizeOf d ∨ getProp d k = SDesc.sundefined := by
  cases d with
  | sobj fields =>
    left
    have h1 := sizeOf_lookupFieldSD fields k
    have h2 : getProp (SDesc.sobj fields) k = lookupFieldSD fields k := rfl
    have h3 : sizeOf (SDesc.sobj fields) = 1 + sizeOf fields := by simp
    rw [h2]
    omega
  | sarr xs =>
    cases h : k.toNat? with
    | none =>
      right
      simp [getProp, h]
    | some i =>
      by_cases hi : i < xs.length
      · left
        have h2 : getProp (SDesc.sarr xs) k = xs.getD i SDesc.sundefined := by
          simp [getProp, h]
        have h4 : xs.getD i SDesc.sundefined = xs[i] :=
          List.getD_eq_getElem xs SDesc.sundefined hi
        have hsz := List.sizeOf_lt_of_mem (List.getElem_mem hi)
        have h3 : sizeOf (SDesc.sarr xs) = 1 + sizeOf xs := by simp
        rw [h2, h4]
        omega
      · right
        have hlen : xs.length ≤ i := Nat.le_of_not_lt hi
        simp [getProp, h, List.getD_eq_default xs SDesc.sundefined hlen,
          List.getElem?_eq_none hlen]
  | sstr s => right; rfl
  | snum q => right; rfl
  | sbool b => right; rfl
  | snull => right; rfl
  | sundefined => right; rfl

/-- A present property is strictly smaller than its carrier. -/
theorem sizeOf_getProp_lt (d : SDesc) (k : String)
    (h : getProp d k ≠ SDesc.sundefined) : sizeOf (getProp d k) < sizeOf d := by
  rcases sizeOf_getProp_or d k with h1 | h1
  · exact h1
  · exact absurd h1 h

/-- Reading a property of a present property stays strictly below the
carrier. -/
theorem sizeOf_getProp_chain (d : SDesc) (k k' : String)
    (h : getProp d k ≠ SDesc.sundefined) :
    sizeOf (getProp (getProp d k) k') < sizeOf d := by
  have hlt := sizeOf_getProp_lt d k h
  rcases sizeOf_getProp_or (getProp d k) k' with h1 | h1
  · exact lt_trans h1 hlt
  · have hone := SDesc.one_le_sizeOf (getProp d k)
    have hsz : sizeOf SDesc.sundefined = 1 := by simp
    rw [h1]
    omega

/-- An element of an array-valued property is strictly smaller than the
carrier. -/
theorem sizeOf_elem_of_getProp_sarr (d : SDesc) (k : String)
    (xs : List SDesc) (h : getProp d k = SDesc.sarr xs) (x : SDesc)
    (hx : x ∈ xs) : sizeOf x < sizeOf d := by
  have h1 : getProp d k ≠ SDesc.sundefined := by rw [h]; intro hc; cases hc
  have hlt := sizeOf_getProp_lt d k h1
  have h2 := List.sizeOf_lt_of_mem hx
  rw [h] at hlt
  simp at hlt
  omega

/-- `JSONSchemaParser::ValidateSchemaStructure` (lines 143-290): the
structural validation pass over a schema description, in source order —
`type`, `properties` (values must be objects, validated recursively),
`items`, `required` (array of strings), `allOf`/`anyOf`/`oneOf` (arrays of
objects, validated recursively), `not`, and `if`/`then`/`else`.  Unknown
keywords are ignored. -/
def ValidateSchemaStructure (d : SDesc) : Bool :=
  (if (getProp d "type").isUndefined then true
   else ValidateTypeField (getProp d "type")) &&
  (if hp : (getProp d "properties").isUndefined = true then true
   else
     (getProp d "properties").isObject &&
     (ownPropNames (getProp d "properties")).all fun name =>
       (getProp (getProp d "properties") name).isObject &&
       ValidateSchemaStructure (getProp (getProp d "properties") name)) &&
  (if hi : (getProp d "items").isUndefined = true then true
   else
     (getProp d "items").isObject &&
     ValidateSchemaStructure (getProp d "items")) &&
  (match getProp d "required" with
   | .sundefined => true
   | .sarr xs => xs.all fun x => x.isString
   | _ => false) &&
  (match ha : getProp d "allOf" with
   | .sundefined => true
   | .sarr xs => xs.attach.all fun sub =>
       sub.1.isObject && ValidateSchemaStructure sub.1
   | _ => false) &&
  (match hb : getProp d "anyOf" with
   | .sundefined => true
   | .sarr xs => xs.attach.all fun sub =>
       sub.1.isObject && ValidateSchemaStructure sub.1
   | _ => false) &&
  (match hc : getProp d "oneOf" with
   | .sundefined => true
   | .sarr xs => xs.attach.all fun sub =>
       sub.1.isObject && ValidateSchemaStructure sub.1
   | _ => false) &&
  (if hn : (getProp d "not").isUndefined = true then true
   else
     (getProp d "not").isObject &&
     ValidateSchemaStructure (getProp d "not")) &&
  (if hif : (getProp d "if").isUndefined = true then true
   else
     (getProp d "if").isObject &&
     ValidateSchemaStructure (getProp d "if")) &&
  (if hth : (getProp d "then").isUndefined = true then true
   else
     (getProp d "then").isObject &&
     ValidateSchemaStructure (getProp d "then")) &&
  (if hel : (getProp d "else").isUndefined = true then true
   else
     (getProp d "else").isObject &&
     ValidateSchemaStructure (getProp d "else"))
termination_by sizeOf d
decreasing_by
  all_goals first
    | exact sizeOf_getProp_chain _ _ _
        (SDesc.ne_sundefined_of_not_isUndefined (by assumption))
    | exact sizeOf_getProp_lt _ _
        (SDesc.ne_sundefined_of_not_isUndefined (by assumption))
    | exact sizeOf_elem_of_getProp_sarr _ _ _ (by assumption) _ sub.2

/-- `JSONSchemaParser::New` (lines 57-90): construction of a parser from a
schema description.  The argument must be an object; the structural pass must
accept it (otherwise `ERR_INVALID_ARG_VALUE` with message
`Invalid JSON Schema`); `ParseSchemaObject` never returns null, so the
remaining failure branch is unreachable. -/
def NewParser (schemaArg : Option SDesc) : Except String Unit :=
  match schemaArg with
  | none => .error "The \"schema\" argument must be an object"
  | some d =>
    if d.isObject = false then
      .error "The \"schema\" argument must be an object"
    else if ValidateSchemaStructure d = false then
      .error "Invalid JSON Schema"
    else .ok ()

/-- Sample scalar core for witnesses: given bounds, everything else neutral. -/
def coreNum (minB maxB eminB emaxB : Option ℚ) (mo : ℚ) : SchemaCore :=
  ⟨[], 0, none, minB, maxB, eminB, emaxB, mo, [], 0, none, 0, none, false⟩

/-- Sample scalar core for witnesses: string length bounds, everything else
neutral. -/
def coreStr (minl : Nat) (maxl : Option Nat) : SchemaCore :=
  ⟨[], minl, maxl, none, none, none, none, 0, [], 0, none, 0, none, false⟩

/-- Sample scalar core for witnesses: type filter only. -/
def coreTypes (ts : List JSONSchemaType) : SchemaCore :=
  ⟨ts, 0, none, none, none, none, none, 0, [], 0, none, 0, none, false⟩

theorem ltOptRat_eq_true_iff (v : ℚ) (o : Option ℚ) :
    ltOptRat v o = true ↔ ∃ m, o = some m ∧ v < m := by
  cases o <;> simp [ltOptRat]

theorem ltOptRat_eq_false_iff (v : ℚ) (o : Option ℚ) :
    ltOptRat v o = false ↔ ∀ m, o = some m → m ≤ v := by
  cases o <;> simp [ltOptRat]

theorem gtOptRat_eq_true_iff (v : ℚ) (o : Option ℚ) :
    gtOptRat v o = true ↔ ∃ m, o = some m ∧ m < v := by
  cases o <;> simp [gtOptRat]

theorem gtOptRat_eq_false_iff (v : ℚ) (o : Option ℚ) :
    gtOptRat v o = false ↔ ∀ m, o = some m → v ≤ m := by
  cases o <;> simp [gtOptRat]

theorem leOptRat_eq_true_iff (v : ℚ) (o : Option ℚ) :
    leOptRat v o = true ↔ ∃ m, o = some m ∧ v ≤ m := by
  cases o <;> simp [leOptRat]

theorem leOptRat_eq_false_iff (v : ℚ) (o : Option ℚ) :
    leOptRat v o = false ↔ ∀ m, o = some m → m < v := by
  cases o <;> simp [leOptRat]

theorem geOptRat_eq_true_iff (v : ℚ) (o : Option ℚ) :
    geOptRat v o = true ↔ ∃ m, o = some m ∧ m ≤ v := by
  cases o <;> simp [geOptRat]

theorem geOptRat_eq_false_iff (v : ℚ) (o : Option ℚ) :
    geOptRat v o = false ↔ ∀ m, o = some m → v < m := by
  cases o <;> simp [geOptRat]

theorem gtOptNat_eq_true_iff (n : Nat) (o : Option Nat) :
    gtOptNat n o = true ↔ ∃ m, o = some m ∧ m < n := by
  cases o <;> simp [gtOptNat]

theorem gtOptNat_eq_false_iff (n : Nat) (o : Option Nat) :
    gtOptNat n o = false ↔ ∀ m, o = some m → n ≤ m := by
  cases o <;> simp [gtOptNat]

/-- Claim C10: the skip-validation flag is true exactly when a second
argument is present, is a mapping, and its `skipValidation` member is a
boolean with value `true`; every other shape (absent argument, non-object
argument, absent member, non-boolean member, boolean `false`) is silently
ignored and the parse runs with full validation. -/
theorem claim_C10 (argOpt : Option OptionsArg) :
    computeSkipValidation argOpt = true ↔
      argOpt = some (OptionsArg.objectWith (some (OptMember.hbool true))) := by
  cases argOpt with
  | none => simp [computeSkipValidation]
  | some a =>
    cases a with
    | notAnObject => simp [computeSkipValidation]
    | objectWith m =>
      cases m with
      | none => simp [computeSkipValidation]
      | some mm =>
        cases mm with
        | hbool b => cases b <;> simp [computeSkipValidation]
        | nonBoolean => simp [computeSkipValidation]

/-- Claim C5: number constraints are evaluated in source order — minimum,
maximum, exclusiveMinimum, exclusiveMaximum, then multipleOf (only when
positive, with exact division and no tolerance) — each violation yielding its
error kind and message, and the value is accepted exactly when all five
conditions hold. -/
theorem claim_C5 (schema : SchemaCore) (v : ℚ) :
    (ValidateNumberConstraints schema v = .ok () ↔
      (∀ m, schema.minimum = some m → m ≤ v) ∧
      (∀ m, schema.maximum = some m → v ≤ m) ∧
      (∀ m, schema.exclusive_minimum = some m → m < v) ∧
      (∀ m, schema.exclusive_maximum = some m → v < m) ∧
      (0 < schema.multiple_of →
        (⌊v / schema.multiple_of⌋ : ℚ) = v / schema.multiple_of)) ∧
    ((∃ m, schema.minimum = some m ∧ v < m) →
      ValidateNumberConstraints schema v =
        .error ⟨.genericError, .numberBelowMinimum,
          "Number is less than minimum"⟩) ∧
    ((∀ m, schema.minimum = some m → m ≤ v) →
      (∃ m, schema.maximum = some m ∧ m < v) →
      ValidateNumberConstraints schema v =
        .error ⟨.genericError, .numberAboveMaximum,
          "Number is greater than maximum"⟩) ∧
    ((∀ m, schema.minimum = some m → m ≤ v) →
      (∀ m, schema.maximum = some m → v ≤ m) →
      (∃ m, schema.exclusive_minimum = some m ∧ v ≤ m) →
      ValidateNumberConstraints schema v =
        .error ⟨.genericError, .numberNotAboveExclMinimum,
          "Number is not greater than exclusiveMinimum"⟩) ∧
    ((∀ m, schema.minimum = some m → m ≤ v) →
      (∀ m, schema.maximum = some m → v ≤ m) →
      (∀ m, schema.exclusive_minimum = some m → m < v) →
      (∃ m, schema.exclusive_maximum = some m ∧ m ≤ v) →
      ValidateNumberConstraints schema v =
        .error ⟨.genericError, .numberNotBelowExclMaximum,
          "Number is not less than exclusiveMaximum"⟩) ∧
    ((∀ m, schema.minimum = some m → m ≤ v) →
      (∀ m, schema.maximum = some m → v ≤ m) →
      (∀ m, schema.exclusive_minimum = some m → m < v) →
      (∀ m, schema.exclusive_maximum = some m → v < m) →
      0 < schema.multiple_of →
      (⌊v / schema.multiple_of⌋ : ℚ) ≠ v / schema.multiple_of →
      ValidateNumberConstraints schema v =
        .error ⟨.genericError, .notMultipleOf,
          "Number is not a multiple of multipleOf"⟩) := by
  unfold ValidateNumberConstraints
  refine ⟨?_, ?_, ?_, ?_, ?_, ?_⟩
  · split_ifs with h1 h2 h3 h4 h5 <;>
      simp_all [ltOptRat_eq_true_iff, ltOptRat_eq_false_iff,
        gtOptRat_eq_true_iff, gtOptRat_eq_false_iff,
        leOptRat_eq_true_iff, leOptRat_eq_false_iff,
        geOptRat_eq_true_iff, geOptRat_eq_false_iff]
  · intro h
    rw [if_pos ((ltOptRat_eq_true_iff v schema.minimum).2 h)]
  · intro h1 h2
    have e1 := (ltOptRat_eq_false_iff v schema.minimum).2 h1
    have e2 := (gtOptRat_eq_true_iff v schema.maximum).2 h2
    simp [e1, e2]
  · intro h1 h2 h3
    have e1 := (ltOptRat_eq_false_iff v schema.minimum).2 h1
    have e2 := (gtOptRat_eq_false_iff v schema.maximum).2 h2
    have e3 := (leOptRat_eq_true_iff v schema.exclusive_minimum).2 h3
    simp [e1, e2, e3]
  · intro h1 h2 h3 h4
    have e1 := (ltOptRat_eq_false_iff v schema.minimum).2 h1
    have e2 := (gtOptRat_eq_false_iff v schema.maximum).2 h2
    have e3 := (leOptRat_eq_false_iff v schema.exclusive_minimum).2 h3
    have e4 := (geOptRat_eq_true_iff v schema.exclusive_maximum).2 h4
    simp [e1, e2, e3, e4]
  · intro h1 h2 h3 h4 h5 h6
    have e1 := (ltOptRat_eq_false_iff v schema.minimum).2 h1
    have e2 := (gtOptRat_eq_false_iff v schema.maximum).2 h2
    have e3 := (leOptRat_eq_false_iff v schema.exclusive_minimum).2 h3
    have e4 := (geOptRat_eq_false_iff v schema.exclusive_maximum).2 h4
    simp [e1, e2, e3, e4]
    exact ⟨h5, h6⟩

/-- Claim C5 witness: with `minimum = 5` the value `3` is rejected with the
minimum violation. -/
theorem claim_C5_witness :
    ValidateNumberConstraints (coreNum (some 5) none none none 0) 3 =
      .error ⟨.genericError, .numberBelowMinimum,
        "Number is less than minimum"⟩ :=
  (claim_C5 (coreNum (some 5) none none none 0) 3).2.1
    ⟨5, rfl, by norm_num⟩

/-- Claim C6: string length is measured in UTF-16 code units of the decoded
host string (not in UTF-8 bytes); a too-short string fails with
`String is shorter than minLength`, a too-long one with
`String is longer than maxLength`, and validation succeeds exactly when
`min_length ≤ length ≤ max_length`. -/
theorem claim_C6 (schema : SchemaCore) (s : String) :
    (ValidateStringConstraints schema s = .ok () ↔
      schema.min_length ≤ utf16Length s ∧
      (∀ m, schema.max_length = some m → utf16Length s ≤ m)) ∧
    (utf16Length s < schema.min_length →
      ValidateStringConstraints schema s =
        .error ⟨.genericError, .stringTooShort,
          "String is shorter than minLength"⟩) ∧
    (schema.min_length ≤ utf16Length s →
      (∃ m, schema.max_length = some m ∧ m < utf16Length s) →
      ValidateStringConstraints schema s =
        .error ⟨.genericError, .stringTooLong,
          "String is longer than maxLength"⟩) := by
  refine ⟨?_, ?_, ?_⟩
  · simp only [ValidateStringConstraints]
    split_ifs with h1 h2 <;>
      simp_all [gtOptNat_eq_true_iff, gtOptNat_eq_false_iff] <;> omega
  · intro h
    simp [ValidateStringConstraints, h]
  · intro h1 h2
    have e2 := (gtOptNat_eq_true_iff (utf16Length s) schema.max_length).2 h2
    simp [ValidateStringConstraints, Nat.not_lt.2 h1, e2]

/-- Claim C6 witness: the one-character string `é` occupies one UTF-16 code
unit but two UTF-8 bytes; with `minLength = 2` it is rejected as too short,
so the measured length is the code-unit count, not the byte count. -/
theorem claim_C6_witness :
    utf16Length "é" = 1 ∧ (utf8Bytes "é").length = 2 ∧
    ValidateStringConstraints (coreStr 2 none) "é" =
      .error ⟨.genericError, .stringTooShort,
        "String is shorter than minLength"⟩ :=
  ⟨by decide, by decide, (claim_C6 (coreStr 2 none) "é").2.1 (by decide)⟩

/-- Errors produced by `ValidateNumberConstraints` are constraint errors,
never a type mismatch. -/
theorem VNC_error_kind (schema : SchemaCore) (v : ℚ) (e : Err)
    (h : ValidateNumberConstraints schema v = .error e) :
    e.kind ≠ ErrKind.typeMismatch := by
  unfold ValidateNumberConstraints at h
  split_ifs at h <;> simp_all <;> simp [← h]

/-- Claim C4: with `Integer` required but `Number` absent from the type
filter, a numeric node is rejected with TypeMismatch (message
`Value does not match schema type`) exactly when it is not a whole number: a
double with a fractional part is rejected, while an int64-extracted value or
a whole-valued double passes the filter (any remaining failure is a
constraint error, not a type mismatch). -/
theorem claim_C4 (fp : HostVal → String) (schema : Schema)
    (hI : JSONSchemaType.INTEGER ∈ schema.core.types)
    (hN : JSONSchemaType.NUMBER ∉ schema.core.types) :
    (∀ q : ℚ, (⌊q⌋ : ℚ) ≠ q →
      ParseJSONValue fp schema false (.jnum (.asDouble q)) =
        .error ⟨.typeError, .typeMismatch,
          "Value does not match schema type"⟩) ∧
    (∀ (i : Int) (e : Err),
      ParseJSONValue fp schema false (.jnum (.asInt i)) = .error e →
      e.kind ≠ ErrKind.typeMismatch) ∧
    (∀ q : ℚ, (⌊q⌋ : ℚ) = q → ∀ e : Err,
      ParseJSONValue fp schema false (.jnum (.asDouble q)) = .error e →
      e.kind ≠ ErrKind.typeMismatch) := by
  have hne : schema.core.types ≠ [] := List.ne_nil_of_mem hI
  refine ⟨?_, ?_, ?_⟩
  · intro q hq
    simp only [ParseJSONValue]
    rw [if_neg (by rintro ⟨-, -, -, hc⟩; exact hc hI),
      if_pos ⟨trivial, hne, hI, hN, hq⟩]
  · intro i e h
    simp only [ParseJSONValue] at h
    rw [if_neg (by rintro ⟨-, -, -, hc⟩; exact hc hI), if_pos trivial] at h
    cases hv : ValidateNumberConstraints schema.core ((i : ℚ)) with
    | error e' =>
      rw [hv] at h
      cases h
      exact VNC_error_kind _ _ _ hv
    | ok u =>
      cases u
      rw [hv] at h
      cases h
  · intro q hq e h
    simp only [ParseJSONValue] at h
    rw [if_neg (by rintro ⟨-, -, -, hc⟩; exact hc hI),
      if_neg (by rintro ⟨-, -, -, -, hc⟩; exact hc hq),
      if_pos trivial] at h
    cases hv : ValidateNumberConstraints schema.core q with
    | error e' =>
      rw [hv] at h
      cases h
      exact VNC_error_kind _ _ _ hv
    | ok u =>
      cases u
      rw [hv] at h
      cases h

/-- Claim C4 witness: under the schema `types = [integer]`, the fractional
double `1/2` is rejected with the type-mismatch message. -/
theorem claim_C4_witness :
    ParseJSONValue (fun _ => "") (Schema.mk (coreTypes [.INTEGER]) [] none)
      false (.jnum (.asDouble (1/2))) =
      .error ⟨.typeError, .typeMismatch,
        "Value does not match schema type"⟩ :=
  (claim_C4 (fun _ => "") (Schema.mk (coreTypes [.INTEGER]) [] none)
    (by decide) (by decide)).1 (1/2) (by norm_num)

theorem typeItemOk_eq_true_iff (x : SDesc) :
    typeItemOk x = true ↔ ∃ t, x = SDesc.sstr t ∧ t ∈ valid_types := by
  cases x <;> simp [typeItemOk]

/-- Claim C9: construction succeeds only if the `type` field, when present,
is a valid type name or a non-empty sequence of valid type names; an empty
type array, an unknown type name, or a type value that is neither a string
nor a sequence makes the type field invalid, and an invalid type field makes
construction fail with the `Invalid JSON Schema` error. -/
theorem claim_C9 (d : SDesc) :
    (NewParser (some d) = .ok () →
      (getProp d "type").isUndefined = true ∨
        ValidateTypeField (getProp d "type") = true) ∧
    (∀ tv : SDesc, ValidateTypeField tv = true ↔
      ((∃ t, tv = SDesc.sstr t ∧ t ∈ valid_types) ∨
       (∃ xs, tv = SDesc.sarr xs ∧ xs ≠ [] ∧
         ∀ x ∈ xs, ∃ t, x = SDesc.sstr t ∧ t ∈ valid_types))) ∧
    (d.isObject = true → (getProp d "type").isUndefined = false →
      ValidateTypeField (getProp d "type") = false →
      NewParser (some d) = .error "Invalid JSON Schema") := by
  refine ⟨?_, ?_, ?_⟩
  · intro h
    simp only [NewParser] at h
    split_ifs at h with h1 h2
    have hvss : ValidateSchemaStructure d = true := by
      revert h2
      cases ValidateSchemaStructure d <;> simp
    unfold ValidateSchemaStructure at hvss
    simp only [Bool.and_eq_true] at hvss
    obtain ⟨⟨⟨⟨⟨⟨⟨⟨⟨⟨c1, -⟩, -⟩, -⟩, -⟩, -⟩, -⟩, -⟩, -⟩, -⟩, -⟩ := hvss
    by_cases hu : (getProp d "type").isUndefined = true
    · exact Or.inl hu
    · rw [if_neg hu] at c1
      exact Or.inr c1
  · intro tv
    cases tv with
    | sstr t => simp [ValidateTypeField]
    | sarr xs =>
      simp only [ValidateTypeField]
      split_ifs with h
      · have : xs = [] := List.length_eq_zero.1 h
        subst this
        simp
      · have hne : xs ≠ [] := by
          intro hc
          subst hc
          simp at h
        simp [List.all_eq_true, typeItemOk_eq_true_iff, hne]
    | snum q => simp [ValidateTypeField]
    | sbool b => simp [ValidateTypeField]
    | snull => simp [ValidateTypeField]
    | sobj fields => simp [ValidateTypeField]
    | sundefined => simp [ValidateTypeField]
  · intro ho hu hv
    have hvss : ValidateSchemaStructure d = false := by
      unfold ValidateSchemaStructure
      simp [hu, hv]
    simp [NewParser, ho, hvss]

/-- Claim C9 witness: the schema description with the unknown type name
`widget` is rejected at construction with `Invalid JSON Schema`. -/
theorem claim_C9_witness :
    NewParser (some (SDesc.sobj [("type", SDesc.sstr "widget")])) =
      .error "Invalid JSON Schema" :=
  (claim_C9 (SDesc.sobj [("type", SDesc.sstr "widget")])).2.2
    (by rfl) (by rfl) (by rfl)

theorem firstMissingRequired_eq_none_iff (required : List String)
    (found : List (List Nat)) :
    firstMissingRequired required found = none ↔
      ∀ r ∈ required, utf8Bytes r ∈ found := by
  induction required with
  | nil => simp [firstMissingRequired]
  | cons r rest ih =>
    simp only [firstMissingRequired]
    split_ifs with h
    · simp [h, ih]
    · simp [h]

theorem firstMissingRequired_eq_some (required : List String)
    (found : List (List Nat)) (r : String)
    (h : firstMissingRequired required found = some r) :
    r ∈ required ∧ utf8Bytes r ∉ found := by
  induction required with
  | nil => simp [firstMissingRequired] at h
  | cons x rest ih =>
    simp only [firstMissingRequired] at h
    split_ifs at h with hx
    · have hr := ih h
      exact ⟨List.mem_cons_of_mem _ hr.1, hr.2⟩
    · cases h
      exact ⟨List.mem_cons_self _ _, hx⟩

/-- Sample scalar core for witnesses: object constraints only. -/
def coreObj (req : List String) (minp : Nat) (maxp : Option Nat) :
    SchemaCore :=
  ⟨[], 0, none, none, none, none, none, 0, req, minp, maxp, 0, none, false⟩

/-- Claim C7: after the field iteration of an object node the engine checks,
in this order, `min_properties ≤ count`, `count ≤ max_properties`, and then
that every required name occurs among the observed keys; a missing required
name fails with `Required property '<name>' is missing` with the name
interpolated, the parse only succeeds when all three checks pass, and none
of this consults `properties` (a required name absent from `properties` must
still be present in the document). -/
theorem claim_C7 (fp : HostVal → String) (schema : Schema)
    (fields : List (Option String × Option JNode))
    (obj : List (String × HostVal)) (found : List (List Nat)) (count : Nat)
    (hiter : goFieldsValidate fp schema fields [] [] 0 =
      .ok (obj, found, count))
    (htype : schema.core.types ≠ [] →
      JSONSchemaType.OBJECT ∈ schema.core.types) :
    (count < schema.core.min_properties →
      ParseJSONValue fp schema false (.jobj (some fields)) =
        .error ⟨.genericError, .tooFewProperties,
          "Object has fewer properties than minProperties"⟩) ∧
    (schema.core.min_properties ≤ count →
      (∃ m, schema.core.max_properties = some m ∧ m < count) →
      ParseJSONValue fp schema false (.jobj (some fields)) =
        .error ⟨.genericError, .tooManyProperties,
          "Object has more properties than maxProperties"⟩) ∧
    (schema.core.min_properties ≤ count →
      (∀ m, schema.core.max_properties = some m → count ≤ m) →
      ∀ r, firstMissingRequired schema.core.required found = some r →
        r ∈ schema.core.required ∧ utf8Bytes r ∉ found ∧
        ParseJSONValue fp schema false (.jobj (some fields)) =
          .error ⟨.genericError, .missingRequired,
            "Required property '" ++ oneByteStringOf (utf8Bytes r) ++
              "' is missing"⟩) ∧
    (schema.core.min_properties ≤ count →
      (∀ m, schema.core.max_properties = some m → count ≤ m) →
      (∀ r ∈ schema.core.required, utf8Bytes r ∈ found) →
      ParseJSONValue fp schema false (.jobj (some fields)) =
        .ok (.vobj obj)) ∧
    (∀ v, ParseJSONValue fp schema false (.jobj (some fields)) = .ok v →
      schema.core.min_properties ≤ count ∧
      (∀ m, schema.core.max_properties = some m → count ≤ m) ∧
      (∀ r ∈ schema.core.required, utf8Bytes r ∈ found)) := by
  have hgate : ¬(false = false ∧ schema.core.types ≠ [] ∧
      JSONSchemaType.OBJECT ∉ schema.core.types) := by
    rintro ⟨-, h1, h2⟩
    exact h2 (htype h1)
  have hbody : ParseJSONValue fp schema false (.jobj (some fields)) =
      (if count < schema.core.min_properties then
        .error ⟨.genericError, .tooFewProperties,
          "Object has fewer properties than minProperties"⟩
      else if gtOptNat count schema.core.max_properties then
        .error ⟨.genericError, .tooManyProperties,
          "Object has more properties than maxProperties"⟩
      else
        match firstMissingRequired schema.core.required found with
        | some required_prop =>
          .error ⟨.genericError, .missingRequired,
            "Required property '" ++
              oneByteStringOf (utf8Bytes required_prop) ++ "' is missing"⟩
        | none => .ok (.vobj obj)) := by
    simp only [ParseJSONValue]
    rw [if_neg (by rintro ⟨-, h1, h2⟩; exact h2 (htype h1)), if_neg (by simp),
      hiter]
  refine ⟨?_, ?_, ?_, ?_, ?_⟩
  · intro h
    rw [hbody, if_pos h]
  · intro h1 h2
    rw [hbody, if_neg (Nat.not_lt.2 h1),
      if_pos ((gtOptNat_eq_true_iff count schema.core.max_properties).2 h2)]
  · intro h1 h2 r hr
    have hmem := firstMissingRequired_eq_some _ _ _ hr
    refine ⟨hmem.1, hmem.2, ?_⟩
    rw [hbody, if_neg (Nat.not_lt.2 h1),
      if_neg (by rw [(gtOptNat_eq_false_iff count
        schema.core.max_properties).2 h2]; simp), hr]
  · intro h1 h2 h3
    rw [hbody, if_neg (Nat.not_lt.2 h1),
      if_neg (by rw [(gtOptNat_eq_false_iff count
        schema.core.max_properties).2 h2]; simp),
      (firstMissingRequired_eq_none_iff _ _).2 h3]
  · intro v hv
    rw [hbody] at hv
    split_ifs at hv with h1 h2
    refine ⟨Nat.not_lt.1 h1,
      (gtOptNat_eq_false_iff count schema.core.max_properties).1
        (Bool.not_eq_true _ ▸ h2), ?_⟩
    cases hfmr : firstMissingRequired schema.core.required found with
    | some r => rw [hfmr] at hv; cases hv
    | none => exact (firstMissingRequired_eq_none_iff _ _).1 hfmr

/-- Claim C7 witness: the empty document object under a schema requiring
`name` fails with the interpolated message
`Required property 'name' is missing`. -/
theorem claim_C7_witness :
    ParseJSONValue (fun _ => "") (Schema.mk (coreObj ["name"] 0 none) [] none)
      false (.jobj (some [])) =
      .error ⟨.genericError, .missingRequired,
        "Required property 'name' is missing"⟩ := by
  have h := (claim_C7 (fun _ => "")
      (Schema.mk (coreObj ["name"] 0 none) [] none) [] [] [] 0
      (by simp [goFieldsValidate])
      (by intro hc; exact absurd rfl hc)).2.2.1
    (Nat.le_refl 0) (by intro m hm; cases hm) "name"
    (by simp [firstMissingRequired])
  have hmsg : "Required property '" ++ oneByteStringOf (utf8Bytes "name") ++
      "' is missing" = "Required property 'name' is missing" := by decide
  rw [hmsg] at h
  exact h.2.2

/-- Claim C8: with `uniqueItems` set, each produced element value is
fingerprinted by its coercion to the host textual form (the coercion `fp` is
a parameter: it is V8's `String::Utf8Value` / JS `ToString`, host behavior
external to the repository), iteration aborts with
`Array contains duplicate items` as soon as an element's fingerprint equals
an earlier one, and only after the iteration completes without duplicates
are `min_items ≤ count` and `count ≤ max_items` checked, in that order. -/
theorem claim_C8 (fp : HostVal → String) (schema : Schema)
    (htype : schema.core.types ≠ [] →
      JSONSchemaType.ARRAY ∈ schema.core.types) :
    (∀ (value : JNode) (rest : List (Option JNode)) (seen : List String)
        (acc : List HostVal) (v : HostVal),
      ParseJSONValue fp (schema.items.getD default_schema) false value =
        .ok v →
      fp v ∈ seen →
      goItemsValidate fp (schema.items.getD default_schema) true
        (some value :: rest) seen acc =
        .error ⟨.genericError, .duplicateItem,
          "Array contains duplicate items"⟩) ∧
    (∀ (elems : List (Option JNode)) (items : List HostVal),
      goItemsValidate fp (schema.items.getD default_schema)
        schema.core.unique_items elems [] [] = .ok items →
      ((items.length < schema.core.min_items →
          ParseJSONValue fp schema false (.jarr (some elems)) =
            .error ⟨.genericError, .tooFewItems,
              "Array has fewer items than minItems"⟩) ∧
       (schema.core.min_items ≤ items.length →
          (∃ m, schema.core.max_items = some m ∧ m < items.length) →
          ParseJSONValue fp schema false (.jarr (some elems)) =
            .error ⟨.genericError, .tooManyItems,
              "Array has more items than maxItems"⟩) ∧
       (schema.core.min_items ≤ items.length →
          (∀ m, schema.core.max_items = some m → items.length ≤ m) →
          ParseJSONValue fp schema false (.jarr (some elems)) =
            .ok (.varr items)))) := by
  constructor
  · intro value rest seen acc v hok hseen
    simp only [goItemsValidate]
    rw [hok]
    simp [hseen]
  · intro elems items hiter
    have hbody : ParseJSONValue fp schema false (.jarr (some elems)) =
        (if items.length < schema.core.min_items then
          .error ⟨.genericError, .tooFewItems,
            "Array has fewer items than minItems"⟩
        else if gtOptNat items.length schema.core.max_items then
          .error ⟨.genericError, .tooManyItems,
            "Array has more items than maxItems"⟩
        else .ok (.varr items)) := by
      simp only [ParseJSONValue]
      rw [if_neg (by rintro ⟨-, h1, h2⟩; exact h2 (htype h1)),
        if_neg (by simp), hiter]
    refine ⟨?_, ?_, ?_⟩
    · intro h
      rw [hbody, if_pos h]
    · intro h1 h2
      rw [hbody, if_neg (Nat.not_lt.2 h1),
        if_pos ((gtOptNat_eq_true_iff items.length
          schema.core.max_items).2 h2)]
    · intro h1 h2
      rw [hbody, if_neg (Nat.not_lt.2 h1),
        if_neg (by rw [(gtOptNat_eq_false_iff items.length
          schema.core.max_items).2 h2]; simp)]

/-- Sample scalar core for witnesses: array constraints only. -/
def coreArr (mini : Nat) (maxi : Option Nat) (uniq : Bool) : SchemaCore :=
  ⟨[], 0, none, none, none, none, none, 0, [], 0, none, mini, maxi, uniq⟩

/-- Claim C8 witness: an element whose fingerprint was already seen is
rejected immediately with `Array contains duplicate items`. -/
theorem claim_C8_witness :
    goItemsValidate (fun _ => "x") default_schema true
      [some (.jnum (.asInt 1))] ["x"] [] =
      .error ⟨.genericError, .duplicateItem,
        "Array contains duplicate items"⟩ :=
  (claim_C8 (fun _ => "x") (Schema.mk (coreArr 0 none true) [] none)
      (by intro hc; exact absurd rfl hc)).1
    (.jnum (.asInt 1)) [] ["x"] [] (.vnum 1)
    (by simp [ParseJSONValue, ValidateNumberConstraints, ltOptRat, gtOptRat,
      leOptRat, geOptRat, default_schema, defaultCore, Schema.core,
      Schema.items, coreArr, Option.getD])
    (by simp)

/-- A field value node is smaller than the field list containing it. -/
theorem sizeOf_field_val {key : String} {nd : JNode}
    {fields : List (Option String × Option JNode)}
    (h : (some key, some nd) ∈ fields) : sizeOf nd < sizeOf fields := by
  have h1 := List.sizeOf_lt_of_mem h
  simp at h1
  omega

/-- An element node is smaller than the element list containing it. -/
theorem sizeOf_item_val {nd : JNode} {elems : List (Option JNode)}
    (h : some nd ∈ elems) : sizeOf nd < sizeOf elems := by
  have h1 := List.sizeOf_lt_of_mem h
  simp at h1
  omega

/-- The skip-mode object loop: its errors are never validation errors, and
when it succeeds, the validating loop under the permissive default schema
succeeds from any bookkeeping state with the same materialized object. -/
theorem goFieldsSkip_spec (fp : HostVal → String)
    (fields : List (Option String × Option JNode))
    (hrec : ∀ key nd, (some key, some nd) ∈ fields →
      (∀ e, ParseJSONValue fp default_schema true nd = .error e →
        ¬IsValidationError e) ∧
      (∀ v, ParseJSONValue fp default_schema true nd = .ok v →
        ParseJSONValue fp default_schema false nd = .ok v)) :
    ∀ obj : List (String × HostVal),
      (∀ e, goFieldsSkip fp fields obj = .error e → ¬IsValidationError e) ∧
      (∀ o, goFieldsSkip fp fields obj = .ok o →
        ∀ found count, ∃ found' count',
          goFieldsValidate fp default_schema fields obj found count =
            .ok (o, found', count')) := by
  induction fields with
  | nil =>
    intro obj
    refine ⟨?_, ?_⟩
    · intro e he
      simp [goFieldsSkip] at he
    · intro o ho found count
      simp only [goFieldsSkip] at ho
      cases ho
      exact ⟨found, count, by simp [goFieldsValidate]⟩
  | cons fld rest ih =>
    have hrecR : ∀ key nd, (some key, some nd) ∈ rest →
        (∀ e, ParseJSONValue fp default_schema true nd = .error e →
          ¬IsValidationError e) ∧
        (∀ v, ParseJSONValue fp default_schema true nd = .ok v →
          ParseJSONValue fp default_schema false nd = .ok v) :=
      fun key nd hm => hrec key nd (List.mem_cons_of_mem _ hm)
    obtain ⟨keyOpt, valOpt⟩ := fld
    intro obj
    cases keyOpt with
    | none =>
      refine ⟨?_, ?_⟩
      · intro e he
        simp only [goFieldsSkip] at he
        exact (ih hrecR obj).1 e he
      · intro o ho found count
        simp only [goFieldsSkip] at ho
        obtain ⟨f', c', hgo⟩ := (ih hrecR obj).2 o ho found count
        exact ⟨f', c', by simp only [goFieldsValidate]; exact hgo⟩
    | some key =>
      cases valOpt with
      | none =>
        refine ⟨?_, ?_⟩
        · intro e he
          simp only [goFieldsSkip] at he
          exact (ih hrecR obj).1 e he
        · intro o ho found count
          simp only [goFieldsSkip] at ho
          obtain ⟨f', c', hgo⟩ := (ih hrecR obj).2 o ho
            (insertBytes found (utf8Bytes key)) (count + 1)
          exact ⟨f', c', by simp only [goFieldsValidate]; exact hgo⟩
      | some value =>
        have hv := hrec key value (List.mem_cons_self _ _)
        refine ⟨?_, ?_⟩
        · intro e he
          simp only [goFieldsSkip] at he
          cases hp : ParseJSONValue fp default_schema true value with
          | error e' =>
            rw [hp] at he
            cases he
            exact hv.1 _ hp
          | ok v =>
            rw [hp] at he
            exact (ih hrecR _).1 e he
        · intro o ho found count
          simp only [goFieldsSkip] at ho
          cases hp : ParseJSONValue fp default_schema true value with
          | error e' =>
            rw [hp] at ho
            cases ho
          | ok v =>
            rw [hp] at ho
            obtain ⟨f', c', hgo⟩ := (ih hrecR _).2 o ho
              (insertBytes found (utf8Bytes key)) (count + 1)
            refine ⟨f', c', ?_⟩
            simp only [goFieldsValidate, default_schema, Schema.properties,
              findPropSchema, Option.getD]
            rw [show ParseJSONValue fp (Schema.mk defaultCore [] none) false
                value = .ok v from hv.2 v hp]
            exact hgo

/-- The skip-mode array loop: its errors are never validation errors, and
when it succeeds, the validating loop under the permissive default schema
(no `uniqueItems`) succeeds with the same elements. -/
theorem goItemsSkip_spec (fp : HostVal → String) (elems : List (Option JNode))
    (hrec : ∀ nd, some nd ∈ elems →
      (∀ e, ParseJSONValue fp default_schema true nd = .error e →
        ¬IsValidationError e) ∧
      (∀ v, ParseJSONValue fp default_schema true nd = .ok v →
        ParseJSONValue fp default_schema false nd = .ok v)) :
    ∀ acc : List HostVal,
      (∀ e, goItemsSkip fp elems acc = .error e → ¬IsValidationError e) ∧
      (∀ o, goItemsSkip fp elems acc = .ok o →
        ∀ seen, goItemsValidate fp default_schema false elems seen acc =
          .ok o) := by
  induction elems with
  | nil =>
    intro acc
    refine ⟨?_, ?_⟩
    · intro e he
      simp [goItemsSkip] at he
    · intro o ho seen
      simp only [goItemsSkip] at ho
      cases ho
      simp [goItemsValidate]
  | cons itemOpt rest ih =>
    have hrecR : ∀ nd, some nd ∈ rest →
        (∀ e, ParseJSONValue fp default_schema true nd = .error e →
          ¬IsValidationError e) ∧
        (∀ v, ParseJSONValue fp default_schema true nd = .ok v →
          ParseJSONValue fp default_schema false nd = .ok v) :=
      fun nd hm => hrec nd (List.mem_cons_of_mem _ hm)
    intro acc
    cases itemOpt with
    | none =>
      refine ⟨?_, ?_⟩
      · intro e he
        simp only [goItemsSkip] at he
        cases he
        decide
      · intro o ho seen
        simp only [goItemsSkip] at ho
        cases ho
    | some value =>
      have hv := hrec value (List.mem_cons_self _ _)
      refine ⟨?_, ?_⟩
      · intro e he
        simp only [goItemsSkip] at he
        cases hp : ParseJSONValue fp default_schema true value with
        | error e' =>
          rw [hp] at he
          cases he
          exact hv.1 _ hp
        | ok v =>
          rw [hp] at he
          exact (ih hrecR _).1 e he
      · intro o ho seen
        simp only [goItemsSkip] at ho
        cases hp : ParseJSONValue fp default_schema true value with
        | error e' =>
          rw [hp] at ho
          cases ho
        | ok v =>
          rw [hp] at ho
          have hgo := (ih hrecR _).2 o ho seen
          simp [goItemsValidate, hv.2 v hp, hgo]

/-- Skip-mode parsing raises no validation error, and whenever it succeeds
the validating parse under the permissive default schema produces the same
value (strong induction on the document size). -/
theorem skip_parse_aux (fp : HostVal → String) :
    ∀ (n : Nat) (doc : JNode), sizeOf doc ≤ n → ∀ schema : Schema,
      (∀ e, ParseJSONValue fp schema true doc = .error e →
        ¬IsValidationError e) ∧
      (∀ v, ParseJSONValue fp schema true doc = .ok v →
        ParseJSONValue fp default_schema false doc = .ok v) := by
  intro n
  induction n with
  | zero =>
    intro doc h
    exfalso
    cases doc <;> simp_all <;> omega
  | succ n ih =>
    intro doc hsz schema
    cases doc with
    | jtypeFail =>
      refine ⟨?_, ?_⟩
      · intro e he
        simp [ParseJSONValue] at he
        subst he
        decide
      · intro v hv
        simp [ParseJSONValue] at hv
    | jnull =>
      refine ⟨?_, ?_⟩
      · intro e he
        simp [ParseJSONValue] at he
      · intro v hv
        simp [ParseJSONValue] at hv
        subst hv
        simp [ParseJSONValue, default_schema, defaultCore, Schema.core]
    | jstr sOpt =>
      cases sOpt with
      | none =>
        refine ⟨?_, ?_⟩
        · intro e he
          simp [ParseJSONValue] at he
          subst he
          decide
        · intro v hv
          simp [ParseJSONValue] at hv
      | some s =>
        refine ⟨?_, ?_⟩
        · intro e he
          simp [ParseJSONValue] at he
        · intro v hv
          simp [ParseJSONValue] at hv
          subst hv
          simp [ParseJSONValue, ValidateStringConstraints, gtOptNat,
            default_schema, defaultCore, Schema.core]
    | jbool bOpt =>
      cases bOpt with
      | none =>
        refine ⟨?_, ?_⟩
        · intro e he
          simp [ParseJSONValue] at he
          subst he
          decide
        · intro v hv
          simp [ParseJSONValue] at hv
      | some b =>
        refine ⟨?_, ?_⟩
        · intro e he
          simp [ParseJSONValue] at he
        · intro v hv
          simp [ParseJSONValue] at hv
          subst hv
          simp [ParseJSONValue, default_schema, defaultCore, Schema.core]
    | jnum rep =>
      cases rep with
      | numFail =>
        refine ⟨?_, ?_⟩
        · intro e he
          simp [ParseJSONValue] at he
          subst he
          decide
        · intro v hv
          simp [ParseJSONValue] at hv
      | asInt i =>
        refine ⟨?_, ?_⟩
        · intro e he
          simp [ParseJSONValue] at he
        · intro v hv
          simp [ParseJSONValue] at hv
          subst hv
          simp [ParseJSONValue, ValidateNumberConstraints, ltOptRat,
            gtOptRat, leOptRat, geOptRat, default_schema, defaultCore,
            Schema.core]
      | asDouble q =>
        refine ⟨?_, ?_⟩
        · intro e he
          simp [ParseJSONValue] at he
        · intro v hv
          simp [ParseJSONValue] at hv
          subst hv
          simp [ParseJSONValue, ValidateNumberConstraints, ltOptRat,
            gtOptRat, leOptRat, geOptRat, default_schema, defaultCore,
            Schema.core]
    | jobj fieldsOpt =>
      cases fieldsOpt with
      | none =>
        refine ⟨?_, ?_⟩
        · intro e he
          simp [ParseJSONValue] at he
          subst he
          decide
        · intro v hv
          simp [ParseJSONValue] at hv
      | some fields =>
        have hrec : ∀ key nd, (some key, some nd) ∈ fields →
            (∀ e, ParseJSONValue fp default_schema true nd = .error e →
              ¬IsValidationError e) ∧
            (∀ v, ParseJSONValue fp default_schema true nd = .ok v →
              ParseJSONValue fp default_schema false nd = .ok v) := by
          intro key nd hm
          refine ih nd ?_ default_schema
          have h1 := sizeOf_field_val hm
          have h2 : sizeOf (JNode.jobj (some fields)) =
              1 + (1 + sizeOf fields) := by simp
          omega
        have hspec := goFieldsSkip_spec fp fields hrec
        have hred : ParseJSONValue fp schema true (.jobj (some fields)) =
            (match goFieldsSkip fp fields [] with
             | .error e => .error e
             | .ok obj => .ok (.vobj obj)) := by
          simp only [ParseJSONValue]
          rw [if_neg (by rintro ⟨hc, -⟩; cases hc), if_pos trivial]
        refine ⟨?_, ?_⟩
        · intro e he
          rw [hred] at he
          cases hgs : goFieldsSkip fp fields [] with
          | error e' =>
            rw [hgs] at he
            cases he
            exact (hspec []).1 _ hgs
          | ok obj =>
            rw [hgs] at he
            cases he
        · intro v hv
          rw [hred] at hv
          cases hgs : goFieldsSkip fp fields [] with
          | error e' =>
            rw [hgs] at hv
            cases hv
          | ok obj =>
            rw [hgs] at hv
            cases hv
            obtain ⟨f', c', hval⟩ := (hspec []).2 obj hgs [] 0
            simp only [ParseJSONValue]
            rw [if_neg (by rintro ⟨-, hc, -⟩; exact hc rfl),
              if_neg (by simp), hval]
            simp [default_schema, defaultCore, Schema.core, gtOptNat,
              firstMissingRequired]
    | jarr itemsOpt =>
      cases itemsOpt with
      | none =>
        refine ⟨?_, ?_⟩
        · intro e he
          simp [ParseJSONValue] at he
          subst he
          decide
        · intro v hv
          simp [ParseJSONValue] at hv
      | some elems =>
        have hrec : ∀ nd, some nd ∈ elems →
            (∀ e, ParseJSONValue fp default_schema true nd = .error e →
              ¬IsValidationError e) ∧
            (∀ v, ParseJSONValue fp default_schema true nd = .ok v →
              ParseJSONValue fp default_schema false nd = .ok v) := by
          intro nd hm
          refine ih nd ?_ default_schema
          have h1 := sizeOf_item_val hm
          have h2 : sizeOf (JNode.jarr (some elems)) =
              1 + (1 + sizeOf elems) := by simp
          omega
        have hspec := goItemsSkip_spec fp elems hrec
        have hred : ParseJSONValue fp schema true (.jarr (some elems)) =
            (match goItemsSkip fp elems [] with
             | .error e => .error e
             | .ok items => .ok (.varr items)) := by
          simp only [ParseJSONValue]
          rw [if_neg (by rintro ⟨hc, -⟩; cases hc), if_pos trivial]
        refine ⟨?_, ?_⟩
        · intro e he
          rw [hred] at he
          cases hgs : goItemsSkip fp elems [] with
          | error e' =>
            rw [hgs] at he
            cases he
            exact (hspec []).1 _ hgs
          | ok items =>
            rw [hgs] at he
            cases he
        · intro v hv
          rw [hred] at hv
          cases hgs : goItemsSkip fp elems [] with
          | error e' =>
            rw [hgs] at hv
            cases hv
          | ok items =>
            rw [hgs] at hv
            cases hv
            have hval := (hspec []).2 items hgs []
            simp only [ParseJSONValue]
            rw [if_neg (by rintro ⟨-, hc, -⟩; exact hc rfl),
              if_neg (by simp),
              show default_schema.items.getD default_schema =
                default_schema from rfl,
              show default_schema.core.unique_items = false from rfl,
              hval]
            simp [default_schema, defaultCore, Schema.core, gtOptNat]

/-- Claim C3: with `skip_validation = true` the parse never raises a
validation error — every raised error is from the syntax/read-failure rows
of the error taxonomy (spec §7, the SyntaxError row: tokenizer/type-tag
failure or a mid-document node read failure) — and whenever it succeeds its
value equals the result of the validating parse under the permissive
default schema. -/
theorem claim_C3 (fp : HostVal → String) (schema : Schema) (doc : JNode) :
    (∀ e, ParseJSONValue fp schema true doc = .error e →
      ¬IsValidationError e ∧
      (e.kind = ErrKind.syntaxKind ∨ e.kind = ErrKind.readFailure)) ∧
    (∀ v, ParseJSONValue fp schema true doc = .ok v →
      ParseJSONValue fp default_schema false doc = .ok v) := by
  have h := skip_parse_aux fp (sizeOf doc) doc (Nat.le_refl _) schema
  refine ⟨?_, h.2⟩
  intro e he
  have h1 := h.1 e he
  refine ⟨h1, ?_⟩
  by_contra hc
  push_neg at hc
  exact h1 ⟨hc.1, hc.2⟩

/-- Claim C3 witness: a `null` document parsed with `skipValidation` under a
string-only schema succeeds, and the permissive validating parse returns the
same value. -/
theorem claim_C3_witness :
    ParseJSONValue (fun _ => "") default_schema false .jnull =
      .ok .vnull :=
  (claim_C3 (fun _ => "") (Schema.mk (coreTypes [.STRING]) [] none)
    .jnull).2 .vnull (by simp [ParseJSONValue])

/-- Claim C2 counterexample: an object field whose key read fails
mid-document is silently skipped — the parse succeeds with the field
dropped instead of propagating an error, refuting the claim as stated. -/
theorem claim_C2_counterexample :
    ParseJSONValue (fun _ => "") default_schema false
      (.jobj (some [(none, none)])) = .ok (.vobj []) := by
  simp [ParseJSONValue, goFieldsValidate, firstMissingRequired, gtOptNat,
    default_schema, defaultCore, Schema.core]

/-- Claim C2 amended: an object field whose key read fails is silently
skipped by both loops and iteration continues; a field whose key read
succeeds but whose value read fails is skipped for materialization yet still
recorded in the observed-key set and the property count; all other
mid-document read failures propagate an error, but only the type-tag
failure is surfaced as SyntaxError — element and scalar extraction failures
surface as plain Error (e.g. `Failed to get string value`). -/
theorem claim_C2_amended (fp : HostVal → String) (schema : Schema)
    (skip : Bool) :
    (∀ valOpt fields obj found count,
      goFieldsValidate fp schema ((none, valOpt) :: fields) obj found
        count = goFieldsValidate fp schema fields obj found count) ∧
    (∀ valOpt fields obj,
      goFieldsSkip fp ((none, valOpt) :: fields) obj =
        goFieldsSkip fp fields obj) ∧
    (∀ key fields obj found count,
      goFieldsValidate fp schema ((some key, none) :: fields) obj found
        count =
      goFieldsValidate fp schema fields obj
        (insertBytes found (utf8Bytes key)) (count + 1)) ∧
    (ParseJSONValue fp schema skip .jtypeFail =
      .error ⟨.syntaxError, .syntaxKind, "Invalid JSON format"⟩) ∧
    (∀ itemsS uniq rest seen acc,
      goItemsValidate fp itemsS uniq (none :: rest) seen acc =
        .error ⟨.genericError, .readFailure, "Failed to get array item"⟩) ∧
    (∀ rest acc,
      goItemsSkip fp (none :: rest) acc =
        .error ⟨.genericError, .readFailure, "Failed to get array item"⟩) ∧
    (∀ e, ParseJSONValue fp schema skip (.jstr none) = .error e →
      e.ctor ≠ ErrCtor.syntaxError) := by
  refine ⟨?_, ?_, ?_, ?_, ?_, ?_, ?_⟩
  · intro valOpt fields obj found count
    simp only [goFieldsValidate]
  · intro valOpt fields obj
    simp only [goFieldsSkip]
  · intro key fields obj found count
    simp only [goFieldsValidate]
  · cases skip <;> simp [ParseJSONValue]
  · intro itemsS uniq rest seen acc
    simp only [goItemsValidate]
  · intro rest acc
    simp only [goItemsSkip]
  · intro e he
    cases skip with
    | true =>
      simp [ParseJSONValue] at he
      subst he
      decide
    | false =>
      simp only [ParseJSONValue] at he
      split_ifs at he with h1
      · cases he
        decide
      · cases he
        decide

/-- Claim C2 amended witness: the string-node read failure is surfaced with
the plain Error constructor, not SyntaxError. -/
theorem claim_C2_amended_witness :
    (⟨ErrCtor.genericError, ErrKind.readFailure,
      "Failed to get string value"⟩ : Err).ctor ≠ ErrCtor.syntaxError :=
  (claim_C2_amended (fun _ => "") default_schema false).2.2.2.2.2.2
    ⟨ErrCtor.genericError, ErrKind.readFailure, "Failed to get string value"⟩
    (by simp [ParseJSONValue, default_schema, defaultCore, Schema.core])

/-- Claim C1 (code bug): under the permissive schema the engine materializes
object keys through `OneByteString` over the key's UTF-8 bytes — a Latin-1
mis-decoding — while string values go through `NewFromUtf8`; for the
document with the single field `"é": 1` the parse succeeds but yields the
mangled key `Ã©`, which differs from the standard JSON interpretation the
claim requires. -/
theorem claim_C1_bug :
    ParseJSONValue (fun _ => "") default_schema false
      (.jobj (some [(some "é", some (.jnum (.asInt 1)))])) =
      .ok (.vobj [("Ã©", .vnum 1)]) ∧
    standardJsonInterp
      (.jobj (some [(some "é", some (.jnum (.asInt 1)))])) =
      some (.vobj [("é", .vnum 1)]) ∧
    (HostVal.vobj [("Ã©", .vnum 1)]) ≠ (HostVal.vobj [("é", .vnum 1)]) := by
  refine ⟨?_, ?_, ?_⟩
  · have hkey : latin1OfUtf8 "é" = "Ã©" := by decide
    simp [ParseJSONValue, goFieldsValidate, ValidateNumberConstraints,
      ltOptRat, gtOptRat, leOptRat, geOptRat, firstMissingRequired,
      gtOptNat, default_schema, defaultCore, Schema.core, Schema.properties,
      findPropSchema, objSet, insertBytes, hkey]
  · simp [standardJsonInterp, stdFields, objSet]
  · intro hc
    have h := congrArg (fun v => match v with
      | HostVal.vobj ((k, _) :: _) => k
      | _ => "") hc
    simp at h

end NodeJsonSchema
